import Mathlib

/-!
Verification of the trustfolio claims-synchronization core.

This file gives a shallow embedding, in Lean, of the claim-handling core of
the trustfolio repository (a TypeScript/Next.js achievement-portfolio app),
and proves or refutes the frozen specification claims about it.

Modelling conventions:
* JavaScript numbers are modelled as `ℚ` (all arithmetic in the core is exact
  small-integer / small-rational arithmetic); record ids are `ℤ`.
* JavaScript strings are modelled as `List Char`; string literals are written
  as `"...".data`.
* Optional / possibly-`undefined` fields are `Option _`; JS truthiness tests
  on them are modelled explicitly (`0`, `""`, `undefined`/`null` are falsy).
* Asynchronous HTTP calls are modelled by passing the remote outcome
  (`Except RemoteError _`) as an argument; `localStorage` and `JSON.parse`
  (platform externals) are modelled by a `BrowserEnv` value and an explicit
  parse function argument.  A `try/catch` whose catch swallows the error is
  modelled by totality of the corresponding Lean function.
* `Number.prototype.toFixed(1)` is modelled as exact one-decimal rounding of
  the rational value (ECMA-262: the nearest multiple of 1/10, ties towards
  the larger value), rendered as `⟨integer part⟩.⟨tenths digit⟩`.
-/

namespace Trustfolio

/-! ## Rating normalizer (src lib `linkedclaims`, first variant)

`starsToScore` from the primary API library:
`return (stars - 2.5) / 2.5;`
-/

def starsToScore (stars : ℚ) : ℚ :=
  (stars - 2.5) / 2.5

/-- The second `starsToScore` variant found in the local-demo library
(`return (stars - 3) / 3;`). -/
def starsToScoreV2 (stars : ℚ) : ℚ :=
  (stars - 3) / 3

/-! ## URI normalizer

```
export function normalizeUri(uri: string): string {
  if (!uri) return uri;
  if (uri.startsWith('http://') || uri.startsWith('https://')) {
    return uri;
  }
  return `https://${uri}`;
}
```
An empty string is the only falsy string in JS.
-/

def normalizeUri (uri : List Char) : List Char :=
  if uri = [] then uri
  else if ("http://".data.isPrefixOf uri || "https://".data.isPrefixOf uri) then uri
  else "https://".data ++ uri

/-! ## Data model -/

/-- The `CreateClaimInput` interface of the library. -/
structure CreateClaimInput where
  subject : List Char
  claim : List Char
  statement : List Char
  effectiveDate : List Char
  howKnown : List Char
  stars : Option ℚ
  score : Option ℚ
  aspect : Option (List Char)
deriving DecidableEq

/-- The stored-claim shape `StoredClaim extends CreateClaimInput` with `id` and `createdAt`. -/
structure StoredClaim extends CreateClaimInput where
  id : ℤ
  createdAt : List Char
deriving DecidableEq

/-- JS truthiness of an optional number (`undefined` and `0` are falsy). -/
def truthyNum : Option ℚ → Bool
  | none => false
  | some q => q != 0

/-- JS truthiness of an optional integer (`undefined` and `0` are falsy). -/
def truthyInt : Option ℤ → Bool
  | none => false
  | some n => n != 0

/-- JS truthiness of an optional string (`undefined`, `null` and `""` are falsy). -/
def truthyStr : Option (List Char) → Bool
  | none => false
  | some s => s != []

/-! ## Remote create (`createClaim`, primary library)

The body sent to `POST /api/claims` is
```
{ ...claimData,
  subject: normalizeUri(claimData.subject),
  score: claimData.stars ? starsToScore(claimData.stars) : claimData.score }
```
We model the payload construction (the part of `createClaim` with claim-level
semantics; the HTTP transport is external).
-/

def createClaim (claimData : CreateClaimInput) : CreateClaimInput :=
  { claimData with
    subject := normalizeUri claimData.subject
    score :=
      if truthyNum claimData.stars then some (starsToScore (claimData.stars.getD 0))
      else claimData.score }

/-! ## Local store adapter -/

/-- The browser context seen by `getLocalClaims`: whether `window` exists, and
the value stored under the `trustfolio_claims` key (`none` = no entry). -/
structure BrowserEnv where
  hasWindow : Bool
  stored : Option (List Char)

/-- Control flow of `getLocalClaims`.  `JSON.parse` is a platform external; it is
modelled by the `parseJson` argument, with a thrown parse exception (or a
non-claim-array result) modelled as `none`; the source's `try/catch` maps the
`none` case to `[]`.
```
if (typeof window === 'undefined') return [];
const stored = localStorage.getItem('trustfolio_claims');
if (!stored) return [];
try { return JSON.parse(stored); } catch { return []; }
```
-/
def getLocalClaims (env : BrowserEnv)
    (parseJson : List Char → Option (List StoredClaim)) : List StoredClaim :=
  if env.hasWindow = false then []
  else
    match env.stored with
    | none => []
    | some s => if s = [] then [] else (parseJson s).getD []

/-- Local create `createClaimLocal`: append a new claim with `id := Date.now()` and
`createdAt := new Date().toISOString()` to the existing list and persist.
The current time is passed in as `now`/`nowIso`.  Returns the persisted list
together with the new claim. -/
def createClaimLocal (existingClaims : List StoredClaim)
    (claimData : CreateClaimInput) (now : ℤ) (nowIso : List Char) :
    List StoredClaim × StoredClaim :=
  let newClaim : StoredClaim :=
    { toCreateClaimInput := claimData, id := now, createdAt := nowIso }
  (existingClaims ++ [newClaim], newClaim)

/-! ## Mode resolution (`loadClaims` in the portfolio page) -/

/-- Identity handed over by the auth context. -/
structure User where
  issuerId : Option ℤ
  id : Option ℤ
deriving DecidableEq

/-- The auth-context values `loadClaims` reads. -/
structure AuthState where
  isAuthenticated : Bool
  token : Option (List Char)
  user : Option User
deriving DecidableEq

/-- The local-only sentinel token value. -/
def nextauthSession : List Char := "nextauth_session".data

/-- The check `const hasBackendToken = token && token !== 'nextauth_session';`
(JS: a null/empty token is falsy). -/
def hasBackendToken (token : Option (List Char)) : Bool :=
  truthyStr token && token != some nextauthSession

/-- The expression `user?.issuerId || user?.id` (JS `||` with `0`/`undefined` falsy). -/
def userIdOf (user : Option User) : Option ℤ :=
  match user with
  | none => none
  | some u => if truthyInt u.issuerId then u.issuerId else u.id

/-- The remote-eligibility condition of `loadClaims`:
`isAuthenticated && hasBackendToken && (user?.issuerId || user?.id)`. -/
def remoteEligible (auth : AuthState) : Bool :=
  auth.isAuthenticated && hasBackendToken auth.token && truthyInt (userIdOf auth.user)

/-- Response envelope of `fetchClaimsByIssuer` (`response.claims` may be
absent; `loadClaims` does `response.claims || []`). -/
structure IssuerResponse where
  claims : Option (List StoredClaim)
deriving DecidableEq

/-- Remote failure: network error, or a non-2xx HTTP status. -/
inductive RemoteError
  | network
  | http (status : ℕ)
deriving DecidableEq

/-- Provenance of a loaded claim set (the `mode` state). -/
inductive Mode
  | backend
  | localFallback
deriving DecidableEq

/-- Result of one `loadClaims` run: the claim set, its provenance, the error
banner, and how many remote/local fetch attempts were made. -/
structure LoadResult where
  claims : List StoredClaim
  mode : Mode
  errorMsg : Option (List Char)
  remoteAttempts : ℕ
  localAttempts : ℕ
deriving DecidableEq

/-- The portfolio page's `loadClaims`.  The remote call's outcome is the
`remote` argument; `localClaims` is what `getLocalClaims()` returns in this
browser context.  The `catch` branch (remote threw) falls back to local and
sets the informational error message; the function is total, so no error
reaches the caller.
-/
def loadClaims (auth : AuthState) (remote : Except RemoteError IssuerResponse)
    (localClaims : List StoredClaim) : LoadResult :=
  if remoteEligible auth then
    match remote with
    | Except.ok response =>
        { claims := response.claims.getD []
          mode := Mode.backend
          errorMsg := none
          remoteAttempts := 1
          localAttempts := 0 }
    | Except.error _ =>
        { claims := localClaims
          mode := Mode.localFallback
          errorMsg := some "Using local data (backend unavailable)".data
          remoteAttempts := 1
          localAttempts := 1 }
  else
    { claims := localClaims
      mode := Mode.localFallback
      errorMsg := none
      remoteAttempts := 0
      localAttempts := 1 }

/-- Where a create is routed. -/
inductive CreateTarget
  | backend
  | localStorage
deriving DecidableEq

/-- The routing decision of `handleSubmit` in the create page:
`if (hasBackendToken && userId) { await createClaim(...) } else { await createClaimLocal(...) }`
with `userId = user?.issuerId || user?.id`. -/
def handleSubmitTarget (token : Option (List Char)) (user : Option User) :
    CreateTarget :=
  if hasBackendToken token && truthyInt (userIdOf user) then CreateTarget.backend
  else CreateTarget.localStorage

/-! ## Import/merge engine (`importAchievements`) -/

/-- The fold `const maxId = Math.max(0, ...existingClaims.map(c => c.id));`. -/
def maxId (claims : List StoredClaim) : ℤ :=
  claims.foldl (fun m c => max m c.id) 0

/-- The merge step of `importAchievements`, applied after the payload has been
validated as an array and the user confirmed:
```
const newClaims = importedData.map((claim, index) => ({ ...claim, id: maxId + index + 1 }));
const mergedClaims = [...existingClaims, ...newClaims];
localStorage.setItem('trustfolio_claims', JSON.stringify(mergedClaims));
```
Returns the persisted merged list. -/
def importAchievements (existingClaims importedData : List StoredClaim) :
    List StoredClaim :=
  let m := maxId existingClaims
  let newClaims := importedData.mapIdx (fun index claim => { claim with id := m + (index : ℤ) + 1 })
  existingClaims ++ newClaims

/-! ## Analytics aggregator (`calculateAnalytics`) -/

/-- Exact model of `Number.prototype.toFixed(1)` on a rational value:
ECMA-262 picks the integer `t` with `t/10` closest to the value, ties towards
the larger `t`, i.e. `t = ⌊10q + 1/2⌋`, rendered `⟨t/10⟩.⟨t mod 10⟩`. -/
def toFixed1 (q : ℚ) : List Char :=
  let t : ℤ := ⌊q * 10 + 1/2⌋
  (toString (t / 10)).data ++ '.' :: (toString (t % 10)).data

/-- The `averageRating` computation of `calculateAnalytics`:
```
claims.length > 0
  ? (claims.reduce((sum, claim) => sum + (claim.stars || 0), 0) / claims.length).toFixed(1)
  : '0.0'
```
-/
def averageRating (claims : List StoredClaim) : List Char :=
  if 0 < claims.length then
    toFixed1 ((claims.foldl (fun sum c => sum + c.stars.getD 0) 0) / (claims.length : ℚ))
  else "0.0".data

/-- The default-category rule `const category = claim.aspect || 'project';` (empty string is falsy). -/
def categoryOf (c : StoredClaim) : List Char :=
  match c.aspect with
  | none => "project".data
  | some a => if a = [] then "project".data else a

/-- The `categoryBreakdown` accumulation object, as an association list in
first-encounter (JS object insertion) order. -/
def categoryCounts (claims : List StoredClaim) : List (List Char × ℕ) :=
  claims.foldl
    (fun acc c =>
      let cat := categoryOf c
      if acc.any (fun p => p.1 == cat) then
        acc.map (fun p => if p.1 = cat then (p.1, p.2 + 1) else p)
      else acc ++ [(cat, 1)])
    []

/-- The sorted entries `sortedCategories = Object.entries(categoryBreakdown).sort(([,a],[,b]) => b - a).slice(0, 5)`
(descending by count, stable). -/
def categoryBreakdown (claims : List StoredClaim) : List (List Char × ℕ) :=
  ((categoryCounts claims).mergeSort (fun p q => decide (q.2 ≤ p.2))).take 5

/-- The `ratingDistribution` buckets, as a map from the integer keys
`1..5` to counts:
```
const ratingDistribution = { 1: 0, 2: 0, 3: 0, 4: 0, 5: 0 };
claims.forEach(claim => {
  const rating = claim.stars || 0;
  if (rating >= 1 && rating <= 5) { ratingDistribution[rating]++; }
});
```
A bucket with key `r` is incremented exactly when the claim's rating equals
that key. -/
def ratingDistribution (claims : List StoredClaim) : ℤ → ℕ :=
  claims.foldl
    (fun dist c =>
      let rating : ℚ := c.stars.getD 0
      if 1 ≤ rating ∧ rating ≤ 5 then
        fun r => if (r : ℚ) = rating then dist r + 1 else dist r
      else dist)
    (fun _ => 0)

/-- The record returned by `calculateAnalytics`. -/
structure Analytics where
  totalAchievements : ℕ
  averageRating : List Char
  categoryBreakdown : List (List Char × ℕ)
  ratingDistribution : ℤ → ℕ

/-- Running `calculateAnalytics` over a claim set. -/
def calculateAnalytics (claims : List StoredClaim) : Analytics :=
  { totalAchievements := claims.length
    averageRating := Trustfolio.averageRating claims
    categoryBreakdown := Trustfolio.categoryBreakdown claims
    ratingDistribution := Trustfolio.ratingDistribution claims }

/-! ## Theorems -/

/-- Claim C1: The primary `starsToScore` does return `(stars - 2.5)/2.5`
(values -0.6, -0.2, 0.2, 0.6, 1.0 at 1..5, strictly increasing), but the
claim that *every* `starsToScore` in the system does so is violated by the
second variant, which computes `(stars - 3)/3`: at 5 stars it returns 2/3,
not 1.0.  This records the evaluation of both variants at the failing
input. -/
theorem starsToScore_variants_disagree :
    starsToScore 1 = -0.6 ∧ starsToScore 2 = -0.2 ∧ starsToScore 3 = 0.2 ∧
    starsToScore 4 = 0.6 ∧ starsToScore 5 = 1 ∧
    starsToScoreV2 5 = 2/3 ∧ starsToScoreV2 5 ≠ 1 := by
  refine ⟨?_, ?_, ?_, ?_, ?_, ?_, ?_⟩ <;> norm_num [starsToScore, starsToScoreV2]

/-- Claim C6: `normalizeUri`: the empty string is returned unchanged; a string
already starting with `http://` or `https://` is returned unchanged;
otherwise `https://` is prefixed.  The function is idempotent (and, being a
total Lean function, raises nothing). -/
theorem normalizeUri_spec (s : List Char) :
    (s = [] → normalizeUri s = s) ∧
    (("http://".data.isPrefixOf s || "https://".data.isPrefixOf s) = true →
      normalizeUri s = s) ∧
    (s ≠ [] → ("http://".data.isPrefixOf s || "https://".data.isPrefixOf s) = false →
      normalizeUri s = "https://".data ++ s) ∧
    normalizeUri (normalizeUri s) = normalizeUri s := by
  refine ⟨?_, ?_, ?_, ?_⟩
  · intro h; simp [normalizeUri, h]
  · intro h
    by_cases hs : s = []
    · simp [normalizeUri, hs]
    · simp [normalizeUri, hs, h]
  · intro hs h; simp [normalizeUri, hs, h]
  · by_cases hs : s = []
    · simp [normalizeUri, hs]
    · by_cases h : ("http://".data.isPrefixOf s || "https://".data.isPrefixOf s) = true
      · simp [normalizeUri, hs, h]
      · have hcond : ¬ "http://".data <+: s ∧ ¬ "https://".data <+: s := by
          simpa using h
        have h2 : normalizeUri s = "https://".data ++ s := by
          simp [normalizeUri, hs, hcond.1, hcond.2]
        rw [h2]
        have hne : "https://".data ++ s ≠ [] := by simp
        have hpre : "https://".data.isPrefixOf ("https://".data ++ s) = true := by
          rw [List.isPrefixOf_iff_prefix]
          exact List.prefix_append _ _
        simp [normalizeUri, hne, hpre]

/-- Witness for claim C6: The conjuncts of `normalizeUri_spec` applied at concrete
inputs. -/
theorem normalizeUri_spec_witness :
    normalizeUri [] = [] ∧
    normalizeUri "http://x".data = "http://x".data ∧
    normalizeUri "example.com".data = "https://".data ++ "example.com".data ∧
    normalizeUri (normalizeUri "example.com".data) = normalizeUri "example.com".data := by
  refine ⟨(normalizeUri_spec []).1 rfl,
    (normalizeUri_spec "http://x".data).2.1 (by decide),
    ((normalizeUri_spec "example.com".data).2.2.1 (by decide) (by decide)),
    (normalizeUri_spec "example.com".data).2.2.2⟩

/-- A concrete sample claim, used to instantiate theorems at explicit inputs. -/
def mkClaim (id : ℤ) (stars : Option ℚ) (aspect : Option (List Char)) : StoredClaim :=
  { subject := "https://example.com".data
    claim := "HAS_SKILL".data
    statement := "did a thing".data
    effectiveDate := "2024-01-01".data
    howKnown := "FIRST_HAND".data
    stars := stars
    score := none
    aspect := aspect
    id := id
    createdAt := "2024-01-02".data }

/-- The seed of `foldl max` is a lower bound of the result. -/
theorem le_foldl_max (l : List StoredClaim) (init : ℤ) :
    init ≤ l.foldl (fun m c => max m c.id) init := by
  induction l generalizing init with
  | nil => exact le_refl _
  | cons a l ih =>
      calc init ≤ max init a.id := le_max_left _ _
        _ ≤ _ := ih (max init a.id)

/-- Every member's id is bounded by the `foldl max` over the list. -/
theorem mem_le_foldl_max (l : List StoredClaim) :
    ∀ (init : ℤ) (c : StoredClaim), c ∈ l →
      c.id ≤ l.foldl (fun m c => max m c.id) init := by
  induction l with
  | nil => intro init c hc; cases hc
  | cons a l ih =>
      intro init c hc
      rcases List.mem_cons.1 hc with h | h
      · subst h
        calc c.id ≤ max init c.id := le_max_right _ _
          _ ≤ _ := le_foldl_max l (max init c.id)
      · exact ih (max init a.id) c h

/-- Every existing id is at most `maxId`. -/
theorem id_le_maxId (claims : List StoredClaim) (c : StoredClaim) (hc : c ∈ claims) :
    c.id ≤ maxId claims :=
  mem_le_foldl_max claims 0 c hc

/-- The ids of the records appended by `importAchievements`, in order. -/
theorem importAchievements_new_ids (existing imported : List StoredClaim) :
    ((importAchievements existing imported).drop existing.length).map (fun c => c.id)
      = (List.range imported.length).map (fun i : ℕ => maxId existing + (i : ℤ) + 1) := by
  unfold importAchievements
  rw [List.drop_left]
  apply List.ext_getElem
  · simp
  · intro n h₁ h₂
    simp only [List.getElem_map, List.getElem_mapIdx, List.getElem_range]

/-- Claim C2: Importing a batch of N records into an existing local set of M
records persists exactly M+N records: the first M are the existing records
unchanged, the record at batch position i receives id `maxId + i + 1` (with
`maxId = max(0, max of existing ids)`), the new ids are mutually distinct and
each strictly greater than every pre-existing id, and running the same import
twice adds 2N records (no deduplication by content). -/
theorem importAchievements_spec (existing imported : List StoredClaim) :
    (importAchievements existing imported).length = existing.length + imported.length ∧
    (importAchievements existing imported).take existing.length = existing ∧
    ((importAchievements existing imported).drop existing.length).map (fun c => c.id)
      = (List.range imported.length).map (fun i : ℕ => maxId existing + (i : ℤ) + 1) ∧
    (((importAchievements existing imported).drop existing.length).map (fun c => c.id)).Nodup ∧
    (∀ c ∈ existing, ∀ d ∈ (importAchievements existing imported).drop existing.length,
      c.id < d.id) ∧
    (importAchievements (importAchievements existing imported) imported).length
      = existing.length + 2 * imported.length := by
  refine ⟨?_, ?_, importAchievements_new_ids existing imported, ?_, ?_, ?_⟩
  · simp [importAchievements]
  · unfold importAchievements
    exact List.take_left _ _
  · rw [importAchievements_new_ids existing imported]
    refine List.Nodup.map ?_ (List.nodup_range _)
    intro a b hab
    simpa using hab
  · intro c hc d hd
    have hid : d.id ∈ ((importAchievements existing imported).drop existing.length).map
        (fun c => c.id) := List.mem_map_of_mem _ hd
    rw [importAchievements_new_ids existing imported] at hid
    rcases List.mem_map.1 hid with ⟨i, _, hi⟩
    have hle : c.id ≤ maxId existing := id_le_maxId existing c hc
    omega
  · simp [importAchievements]
    ring

/-- Witness for claim C2: `importAchievements_spec` at a concrete two-element local
set and a concrete two-element batch. -/
theorem importAchievements_spec_witness :
    (importAchievements [mkClaim 7 none none] [mkClaim 3 none none, mkClaim 100 none none]).length
        = 1 + 2 ∧
    (importAchievements [mkClaim 7 none none]
        [mkClaim 3 none none, mkClaim 100 none none]).take 1 = [mkClaim 7 none none] ∧
    ((importAchievements [mkClaim 7 none none]
        [mkClaim 3 none none, mkClaim 100 none none]).drop 1).map (fun c => c.id)
      = (List.range 2).map (fun i : ℕ => maxId [mkClaim 7 none none] + (i : ℤ) + 1) ∧
    (((importAchievements [mkClaim 7 none none]
        [mkClaim 3 none none, mkClaim 100 none none]).drop 1).map (fun c => c.id)).Nodup ∧
    (∀ c ∈ [mkClaim 7 none none],
      ∀ d ∈ (importAchievements [mkClaim 7 none none]
        [mkClaim 3 none none, mkClaim 100 none none]).drop 1, c.id < d.id) ∧
    (importAchievements
        (importAchievements [mkClaim 7 none none] [mkClaim 3 none none, mkClaim 100 none none])
        [mkClaim 3 none none, mkClaim 100 none none]).length = 1 + 2 * 2 :=
  importAchievements_spec [mkClaim 7 none none] [mkClaim 3 none none, mkClaim 100 none none]

/-- A concrete remote-eligible auth state: authenticated, a real (non-sentinel)
backend token, and an issuer id. -/
def authEx : AuthState :=
  { isAuthenticated := true
    token := some "tok123".data
    user := some { issuerId := some 42, id := none } }

/-- Claim C3: For a remote-eligible caller, if the remote adapter fails (network
or HTTP error), `loadClaims` returns the local claim set with provenance
`local` and the informational banner; it makes exactly one remote attempt and
one local attempt there, and never more than one of each on any path.  The
function is total, so no error propagates to the caller. -/
theorem loadClaims_remote_failure (auth : AuthState) (e : RemoteError)
    (localClaims : List StoredClaim) (h : remoteEligible auth = true) :
    loadClaims auth (Except.error e) localClaims =
      { claims := localClaims
        mode := Mode.localFallback
        errorMsg := some "Using local data (backend unavailable)".data
        remoteAttempts := 1
        localAttempts := 1 } ∧
    (∀ remote, (loadClaims auth remote localClaims).remoteAttempts ≤ 1 ∧
      (loadClaims auth remote localClaims).localAttempts ≤ 1) := by
  constructor
  · simp [loadClaims, h]
  · intro remote
    by_cases he : remoteEligible auth = true
    · cases remote <;> simp [loadClaims, he]
    · simp [loadClaims, he]

/-- Witness for claim C3: `loadClaims_remote_failure` at a concrete eligible auth
state and a network error. -/
theorem loadClaims_remote_failure_witness :
    loadClaims authEx (Except.error RemoteError.network) [mkClaim 5 none none] =
      { claims := [mkClaim 5 none none]
        mode := Mode.localFallback
        errorMsg := some "Using local data (backend unavailable)".data
        remoteAttempts := 1
        localAttempts := 1 } :=
  (loadClaims_remote_failure authEx RemoteError.network [mkClaim 5 none none] (by decide)).1

/-- Claim C4: A caller whose token is the local-only sentinel `nextauth_session`
is never remote-eligible, regardless of the issuer/user identity: `loadClaims`
makes zero remote attempts and serves local storage, and the create path of
`handleSubmit` routes to `createClaimLocal`. -/
theorem sentinel_token_never_remote (auth : AuthState)
    (remote : Except RemoteError IssuerResponse) (localClaims : List StoredClaim)
    (user : Option User) (h : auth.token = some nextauthSession) :
    remoteEligible auth = false ∧
    loadClaims auth remote localClaims =
      { claims := localClaims
        mode := Mode.localFallback
        errorMsg := none
        remoteAttempts := 0
        localAttempts := 1 } ∧
    handleSubmitTarget (some nextauthSession) user = CreateTarget.localStorage := by
  have hbt : hasBackendToken auth.token = false := by
    rw [h]; simp [hasBackendToken]
  refine ⟨?_, ?_, ?_⟩
  · simp [remoteEligible, hbt]
  · simp [loadClaims, remoteEligible, hbt]
  · simp [handleSubmitTarget, hasBackendToken]

/-- A concrete OAuth-style auth state: sentinel token but full identity. -/
def authOauth : AuthState :=
  { isAuthenticated := true
    token := some nextauthSession
    user := some { issuerId := some 7, id := some 7 } }

/-- Witness for claim C4: `sentinel_token_never_remote` at a concrete sentinel-token
auth state whose remote call would even succeed. -/
theorem sentinel_token_never_remote_witness :
    remoteEligible authOauth = false ∧
    loadClaims authOauth (Except.ok ⟨some [mkClaim 9 none none]⟩) [mkClaim 1 none none] =
      { claims := [mkClaim 1 none none]
        mode := Mode.localFallback
        errorMsg := none
        remoteAttempts := 0
        localAttempts := 1 } ∧
    handleSubmitTarget (some nextauthSession) (some { issuerId := some 7, id := some 7 }) =
      CreateTarget.localStorage :=
  sentinel_token_never_remote authOauth (Except.ok ⟨some [mkClaim 9 none none]⟩)
    [mkClaim 1 none none] (some { issuerId := some 7, id := some 7 }) rfl

/-- A concrete claim input whose subject is a bare hostname (no URI scheme). -/
def bareInput : CreateClaimInput :=
  { subject := "example.com".data
    claim := "HAS_SKILL".data
    statement := "did a thing".data
    effectiveDate := "2024-01-01".data
    howKnown := "FIRST_HAND".data
    stars := some 5
    score := none
    aspect := none }

/-- Counterexample for claim C5: The local create path does not invoke the URI
normalizer: `createClaimLocal` persists the bare-hostname subject
`example.com` verbatim, and the persisted subject starts with neither
`http://` nor `https://` — so it is false that every claim persisted by
either adapter has a normalized subject. -/
theorem createClaimLocal_subject_not_normalized :
    ((createClaimLocal [] bareInput 1700000000000 "2024-01-02".data).2).subject
        = "example.com".data ∧
    "http://".data.isPrefixOf "example.com".data = false ∧
    "https://".data.isPrefixOf "example.com".data = false :=
  ⟨rfl, by decide, by decide⟩

/-- Applying `normalizeUri` to a non-empty string always yields a subject carrying an `http://` or
`https://` scheme. -/
theorem normalizeUri_hasScheme (s : List Char) (hs : s ≠ []) :
    ("http://".data.isPrefixOf (normalizeUri s)
      || "https://".data.isPrefixOf (normalizeUri s)) = true := by
  by_cases h : ("http://".data.isPrefixOf s || "https://".data.isPrefixOf s) = true
  · have heq : normalizeUri s = s := by simp [normalizeUri, hs, h]
    rw [heq]; exact h
  · have hcond : ¬ "http://".data <+: s ∧ ¬ "https://".data <+: s := by
      simpa using h
    have h2 : normalizeUri s = "https://".data ++ s := by
      simp [normalizeUri, hs, hcond.1, hcond.2]
    have hpre : "https://".data.isPrefixOf ("https://".data ++ s) = true := by
      rw [List.isPrefixOf_iff_prefix]
      exact List.prefix_append _ _
    rw [h2]
    simp [hpre]

/-- Amended claim C5: Only the remote create path normalizes the subject: the
payload `createClaim` sends has an `http://`/`https://` subject for every
non-empty input subject, while `createClaimLocal` appends the claim with its
subject exactly as given (no normalization before local persistence). -/
theorem create_subject_normalization (claimData : CreateClaimInput)
    (existing : List StoredClaim) (now : ℤ) (nowIso : List Char)
    (h : claimData.subject ≠ []) :
    ("http://".data.isPrefixOf (createClaim claimData).subject
      || "https://".data.isPrefixOf (createClaim claimData).subject) = true ∧
    (createClaimLocal existing claimData now nowIso).1
      = existing ++ [(createClaimLocal existing claimData now nowIso).2] ∧
    ((createClaimLocal existing claimData now nowIso).2).subject = claimData.subject := by
  refine ⟨?_, rfl, rfl⟩
  have : (createClaim claimData).subject = normalizeUri claimData.subject := rfl
  rw [this]
  exact normalizeUri_hasScheme claimData.subject h

/-- Witness for amended claim C5: `create_subject_normalization` at the concrete
bare-hostname input. -/
theorem create_subject_normalization_witness :
    ("http://".data.isPrefixOf (createClaim bareInput).subject
      || "https://".data.isPrefixOf (createClaim bareInput).subject) = true ∧
    (createClaimLocal [] bareInput 1700000000000 "2024-01-02".data).1
      = [] ++ [(createClaimLocal [] bareInput 1700000000000 "2024-01-02".data).2] ∧
    ((createClaimLocal [] bareInput 1700000000000 "2024-01-02".data).2).subject
      = bareInput.subject :=
  create_subject_normalization bareInput [] 1700000000000 "2024-01-02".data (by decide)

/-- A create input that carries both a star rating and an explicit score. -/
def starsOverrideInput : CreateClaimInput :=
  { bareInput with stars := some 5, score := some (1/10) }

/-- A create input with no star rating but an explicit score. -/
def noStarsInput : CreateClaimInput :=
  { bareInput with stars := none, score := some (1/4) }

/-- Counterexample for claim C7: On the remote create path, a caller-supplied
explicit score is *not* preserved when `stars` is also present: with
`stars = 5` and `score = 0.1`, the payload's score is the derived value `1`,
not the caller's `0.1`. -/
theorem createClaim_score_override_lost :
    (createClaim starsOverrideInput).score = some 1 ∧
    starsOverrideInput.score = some (1/10) ∧
    some ((1 : ℚ)/10) ≠ some (1 : ℚ) := by
  refine ⟨?_, rfl, by norm_num⟩
  norm_num [createClaim, starsOverrideInput, bareInput, truthyNum, starsToScore]

/-- Amended claim C7: On the remote create path, whenever `stars` is present
(and nonzero, i.e. JS-truthy), the persisted score is the one derived from
`stars` by the rating normalizer, overriding any caller-supplied score; the
caller-supplied score is persisted only when `stars` is absent (or `0`). -/
theorem createClaim_score_rule (claimData : CreateClaimInput) :
    (truthyNum claimData.stars = true →
      (createClaim claimData).score = some (starsToScore (claimData.stars.getD 0))) ∧
    (truthyNum claimData.stars = false →
      (createClaim claimData).score = claimData.score) := by
  constructor <;> intro h <;> simp [createClaim, h]

/-- Witness for amended claim C7: `createClaim_score_rule` at the two concrete
inputs: stars present (derived score wins) and stars absent (explicit score
kept). -/
theorem createClaim_score_rule_witness :
    (createClaim starsOverrideInput).score
        = some (starsToScore (starsOverrideInput.stars.getD 0)) ∧
    (createClaim noStarsInput).score = noStarsInput.score :=
  ⟨(createClaim_score_rule starsOverrideInput).1
      (by simp [starsOverrideInput, bareInput, truthyNum]),
    (createClaim_score_rule noStarsInput).2 rfl⟩

/-- Claim C9: `getLocalClaims` returns the empty list when no browser storage
context exists, when nothing is stored under the key, and when the stored
value fails to parse; being a total function, it throws nothing for any
stored string. -/
theorem getLocalClaims_degrades (env : BrowserEnv)
    (parseJson : List Char → Option (List StoredClaim)) :
    (env.hasWindow = false → getLocalClaims env parseJson = []) ∧
    (env.stored = none → getLocalClaims env parseJson = []) ∧
    (∀ s, env.stored = some s → parseJson s = none →
      getLocalClaims env parseJson = []) := by
  refine ⟨?_, ?_, ?_⟩
  · intro h
    simp [getLocalClaims, h]
  · intro h
    cases hw : env.hasWindow <;> simp [getLocalClaims, h, hw]
  · intro s hs hp
    cases hw : env.hasWindow
    · simp [getLocalClaims, hw]
    · by_cases hse : s = [] <;> simp [getLocalClaims, hw, hs, hse, hp]

/-- Witness for claim C9: `getLocalClaims_degrades` at three concrete stores:
server-side (no window), empty slot, and a corrupt value whose parse fails. -/
theorem getLocalClaims_degrades_witness :
    getLocalClaims ⟨false, some "x".data⟩ (fun _ => some []) = [] ∧
    getLocalClaims ⟨true, none⟩ (fun _ => some []) = [] ∧
    getLocalClaims ⟨true, some "notjson".data⟩ (fun _ => none) = [] :=
  ⟨(getLocalClaims_degrades ⟨false, some "x".data⟩ (fun _ => some [])).1 rfl,
    (getLocalClaims_degrades ⟨true, none⟩ (fun _ => some [])).2.1 rfl,
    (getLocalClaims_degrades ⟨true, some "notjson".data⟩ (fun _ => none)).2.2
      "notjson".data rfl rfl⟩

/-- The stars-sum fold of `averageRating` is the sum of the (missing-as-0)
star values. -/
theorem foldl_stars_sum (claims : List StoredClaim) :
    claims.foldl (fun sum c => sum + c.stars.getD 0) 0
      = (claims.map (fun c => c.stars.getD 0)).sum := by
  rw [List.sum_eq_foldl, List.foldl_map]

/-- The mean of the star ratings (missing stars as 0) — the quantity the spec
says `averageRating` renders. -/
def meanStars (claims : List StoredClaim) : ℚ :=
  (claims.map (fun c => c.stars.getD 0)).sum / claims.length

/-- The `[5,5,3]` claim set of the spec's analytics test property. -/
def demo553 : List StoredClaim :=
  [mkClaim 1 (some 5) none, mkClaim 2 (some 5) none, mkClaim 3 (some 3) none]

/-- Claim C8: `calculateAnalytics`: for the empty set, `averageRating = "0.0"`
and `categoryBreakdown = []`; for every non-empty set, `averageRating` is the
mean of `stars` (missing as 0) rendered to one decimal; for stars `[5,5,3]`
it is `"4.3"`. -/
theorem calculateAnalytics_averageRating (claims : List StoredClaim) :
    (calculateAnalytics []).averageRating = "0.0".data ∧
    (calculateAnalytics []).categoryBreakdown = [] ∧
    (claims ≠ [] →
      (calculateAnalytics claims).averageRating = toFixed1 (meanStars claims)) ∧
    (calculateAnalytics demo553).averageRating = "4.3".data := by
  refine ⟨rfl, ?_, ?_, ?_⟩
  · simp [calculateAnalytics, categoryBreakdown, categoryCounts, List.mergeSort_nil]
  · intro h
    have hl : 0 < claims.length := List.length_pos.mpr h
    simp only [calculateAnalytics, averageRating, if_pos hl, foldl_stars_sum, meanStars]
  · have h1 : demo553.foldl (fun sum c => sum + c.stars.getD 0) 0 = 13 := by
      simp [demo553, List.foldl, mkClaim]
      norm_num
    show averageRating demo553 = "4.3".data
    simp only [averageRating, demo553, List.length_cons, List.length_nil]
    rw [if_pos (by norm_num)]
    rw [show ([mkClaim 1 (some 5) none, mkClaim 2 (some 5) none,
      mkClaim 3 (some 3) none].foldl (fun sum c => sum + c.stars.getD 0) 0) = 13 from h1]
    have h2 : ((13 : ℚ) / (((0 : ℕ) + 1 + 1 + 1 : ℕ) : ℚ)) * 10 + 1/2 = 263/6 := by
      push_cast; norm_num
    simp only [toFixed1]
    rw [show (((13 : ℚ) / ((2 + 1 : ℕ) : ℚ)) * 10 + 1/2) = 263/6 by push_cast; norm_num]
    rw [show ⌊(263 : ℚ)/6⌋ = 43 by norm_num [Int.floor_eq_iff]]
    decide

/-- Witness for claim C8: The non-empty-set conjunct of
`calculateAnalytics_averageRating` applied at a concrete one-claim set. -/
theorem calculateAnalytics_averageRating_witness :
    (calculateAnalytics [mkClaim 1 (some 2) none]).averageRating
      = toFixed1 (meanStars [mkClaim 1 (some 2) none]) :=
  (calculateAnalytics_averageRating [mkClaim 1 (some 2) none]).2.2.1 (by simp)

/-- Unrolling the `ratingDistribution` fold from an arbitrary bucket table:
each bucket ends up with its initial value plus the number of claims whose
(in-range) rating equals the bucket key. -/
theorem ratingDistribution_aux (claims : List StoredClaim) :
    ∀ (dist : ℤ → ℕ) (r : ℤ),
      (claims.foldl
        (fun dist c =>
          let rating : ℚ := c.stars.getD 0
          if 1 ≤ rating ∧ rating ≤ 5 then
            fun r : ℤ => if (r : ℚ) = rating then dist r + 1 else dist r
          else dist)
        dist) r
      = dist r + claims.countP (fun c =>
          decide ((1 ≤ c.stars.getD 0 ∧ c.stars.getD 0 ≤ 5)
            ∧ (r : ℚ) = c.stars.getD 0)) := by
  induction claims with
  | nil => intro dist r; simp
  | cons a l ih =>
      intro dist r
      simp only [List.foldl_cons, List.countP_cons]
      rw [ih]
      by_cases h1 : (1 : ℚ) ≤ a.stars.getD 0 ∧ a.stars.getD 0 ≤ 5
      · by_cases h2 : (r : ℚ) = a.stars.getD 0
        · simp only [h1, if_pos, h2, decide_eq_true_eq]
          simp [h1, h2]
          omega
        · simp [h1, h2]
      · simp [h1]

/-- Each `ratingDistribution` bucket equals a `countP` over the claim set. -/
theorem ratingDistribution_eq_countP (claims : List StoredClaim) (r : ℤ) :
    ratingDistribution claims r
      = claims.countP (fun c =>
          decide ((1 ≤ c.stars.getD 0 ∧ c.stars.getD 0 ≤ 5)
            ∧ (r : ℚ) = c.stars.getD 0)) := by
  have h := ratingDistribution_aux claims (fun _ => 0) r
  simpa [ratingDistribution] using h

/-- A two-claim set, one claim with stars 5 and one with no stars at all. -/
def demoMissing : List StoredClaim :=
  [mkClaim 1 (some 5) none, mkClaim 2 none none]

/-- Claim C10: Each rating bucket `r ∈ [1,5]` counts exactly the claims whose
(missing-as-0) stars value equals `r`; a claim with missing or out-of-range
stars lands in no bucket while still being counted in `totalAchievements` and
in `averageRating`'s denominator, so the five bucket counts can sum to
strictly less than the count — as on the concrete set `[stars 5, no stars]`:
count 2, average `"2.5"`, bucket sum 1. -/
theorem ratingDistribution_buckets (claims : List StoredClaim) (r : ℤ)
    (hr1 : 1 ≤ r) (hr5 : r ≤ 5) :
    ratingDistribution claims r
      = claims.countP (fun c => decide ((r : ℚ) = c.stars.getD 0)) ∧
    (calculateAnalytics demoMissing).totalAchievements = 2 ∧
    (calculateAnalytics demoMissing).averageRating = "2.5".data ∧
    ((calculateAnalytics demoMissing).ratingDistribution 1
      + (calculateAnalytics demoMissing).ratingDistribution 2
      + (calculateAnalytics demoMissing).ratingDistribution 3
      + (calculateAnalytics demoMissing).ratingDistribution 4
      + (calculateAnalytics demoMissing).ratingDistribution 5) = 1 := by
  refine ⟨?_, rfl, ?_, by decide⟩
  · rw [ratingDistribution_eq_countP]
    apply List.countP_congr
    intro c _
    simp only [decide_eq_true_eq]
    constructor
    · rintro ⟨_, hx⟩
      exact hx
    · intro hx
      refine ⟨⟨?_, ?_⟩, hx⟩
      · rw [← hx]
        exact_mod_cast hr1
      · rw [← hx]
        exact_mod_cast hr5
  · have h1 : demoMissing.foldl (fun sum c => sum + c.stars.getD 0) 0 = 5 := by
      simp [demoMissing, List.foldl, mkClaim]
    show averageRating demoMissing = "2.5".data
    simp only [averageRating, demoMissing, List.length_cons, List.length_nil]
    rw [if_pos (by norm_num)]
    rw [show ([mkClaim 1 (some 5) none,
      mkClaim 2 none none].foldl (fun sum c => sum + c.stars.getD 0) 0) = 5 from h1]
    simp only [toFixed1]
    rw [show (((5 : ℚ) / ((1 + 1 : ℕ) : ℚ)) * 10 + 1/2) = 51/2 by push_cast; norm_num]
    rw [show ⌊(51 : ℚ)/2⌋ = 25 by norm_num [Int.floor_eq_iff]]
    decide

/-- Witness for claim C10: `ratingDistribution_buckets` at bucket 5 of the concrete
missing-stars set. -/
theorem ratingDistribution_buckets_witness :
    ratingDistribution demoMissing 5
      = demoMissing.countP (fun c => decide (((5 : ℤ) : ℚ) = c.stars.getD 0)) ∧
    (calculateAnalytics demoMissing).totalAchievements = 2 ∧
    (calculateAnalytics demoMissing).averageRating = "2.5".data ∧
    ((calculateAnalytics demoMissing).ratingDistribution 1
      + (calculateAnalytics demoMissing).ratingDistribution 2
      + (calculateAnalytics demoMissing).ratingDistribution 3
      + (calculateAnalytics demoMissing).ratingDistribution 4
      + (calculateAnalytics demoMissing).ratingDistribution 5) = 1 :=
  ratingDistribution_buckets demoMissing 5 (by decide) (by decide)

end Trustfolio
